import Mathlib

/-!
Verification of the flexymarketstracking backend against its specification.

Each namespace shallowly embeds one subsystem of the JavaScript source:
document stores become lists of structures, Mongoose operations become pure
state-passing functions, and HTTP handlers become functions from a request
and a store state to a response and a new state.  Timestamps are modelled
as integers (milliseconds), `Math.floor` division as `Int.fdiv`, and the
external push transport as an oracle function from a device token to a
per-token success flag (mirroring `sendEachForMulticast`, which returns one
response per token in order).
-/

/-- HTTP-style response envelope: `res.status(code).json({status, message})`. -/
inductive Resp where
  | ok (code : Nat) (msg : String)
  | err (code : Nat) (msg : String)
deriving Repr, DecidableEq

/-- Whitespace as stripped by JavaScript `String.prototype.trim` (the common
ASCII cases). -/
def isJsWs (c : Char) : Bool :=
  c == ' ' || c == '\t' || c == '\n' || c == '\r'

/-- JavaScript `text.trim()`: strip leading and trailing whitespace.  Defined
over the character list so that concrete inputs evaluate inside the kernel. -/
def jsTrim (s : String) : String :=
  ⟨(((s.data.dropWhile isJsWs).reverse.dropWhile isJsWs).reverse)⟩

namespace Comments

/-! Embedding of `src/models/Comment.js` (part_008) and
`src/controllers/commentController.js` (part_003, the soft-delete variant
cited by the spec, lines 1-246). -/

/-- The slice of a Post document that the comment subsystem touches. -/
structure PostDoc where
  id : Nat
  isActive : Bool
  commentsCount : Int
deriving Repr, DecidableEq

/-- A Comment document (`commentSchema`). -/
structure CommentDoc where
  id : Nat
  post : Nat
  user : Nat
  text : String
  parentComment : Option Nat
  likes : List Nat
  repliesCount : Int
  isEdited : Bool
  isActive : Bool
deriving Repr, DecidableEq

/-- The document store visible to the comment subsystem. -/
structure St where
  posts : List PostDoc
  comments : List CommentDoc
  nextId : Nat
deriving Repr, DecidableEq

def findPost (s : St) (pid : Nat) : Option PostDoc :=
  s.posts.find? (fun p => p.id == pid)

def findComment (s : St) (cid : Nat) : Option CommentDoc :=
  s.comments.find? (fun c => c.id == cid)

/-- `Post.findByIdAndUpdate(pid, { $inc: { commentsCount: n } })`. -/
def incPostCommentsCount (s : St) (pid : Nat) (n : Int) : St :=
  { s with posts := s.posts.map (fun p =>
      if p.id == pid then { p with commentsCount := p.commentsCount + n } else p) }

/-- `Comment.findByIdAndUpdate(cid, { $inc: { repliesCount: n } })`. -/
def incCommentRepliesCount (s : St) (cid : Nat) (n : Int) : St :=
  { s with comments := s.comments.map (fun c =>
      if c.id == cid then { c with repliesCount := c.repliesCount + n } else c) }

/-- `commentSchema.post('save')` (part_008 lines 57-68).  Mongoose runs this
document middleware after every successful `save()`, whether the document is
new or an update. -/
def postSaveHook (c : CommentDoc) (s : St) : St :=
  match c.parentComment with
  | none => incPostCommentsCount s c.post 1
  | some pc => incCommentRepliesCount s pc 1

/-- `commentSchema.post('remove')` (part_008 lines 71-81). -/
def postRemoveHook (c : CommentDoc) (s : St) : St :=
  match c.parentComment with
  | none => incPostCommentsCount s c.post (-1)
  | some pc => incCommentRepliesCount s pc (-1)

/-- `comment.save()` on an existing document: write back, then the
post-save hook fires. -/
def saveComment (s : St) (c : CommentDoc) : St :=
  postSaveHook c
    { s with comments := s.comments.map (fun d => if d.id == c.id then c else d) }

/-- `Comment.create(...)`: inserts the new document via `save()`, so the
post-save hook fires as well. -/
def createDoc (s : St) (c : CommentDoc) : St :=
  postSaveHook c { s with comments := s.comments ++ [c], nextId := s.nextId + 1 }

/-- `createComment` (part_003 lines 8-49). -/
def createComment (s : St) (userId postId : Nat) (text : String)
    (parentCommentId : Option Nat) : Resp × St :=
  match findPost s postId with
  | none => (.err 404 "Post not found or has been deleted", s)
  | some p =>
    if !p.isActive then (.err 404 "Post not found or has been deleted", s)
    else
      let doCreate : Resp × St :=
        (.ok 201 "Comment added successfully",
          createDoc s
            { id := s.nextId, post := postId, user := userId, text := jsTrim text
              parentComment := parentCommentId, likes := [], repliesCount := 0
              isEdited := false, isActive := true })
      match parentCommentId with
      | none => doCreate
      | some pcid =>
        match findComment s pcid with
        | none => (.err 404 "Parent comment not found or invalid", s)
        | some pc =>
          if !pc.isActive || pc.post != postId then
            (.err 404 "Parent comment not found or invalid", s)
          else doCreate

/-- `updateComment` (part_003 lines 130-170).  `isAdmin` models
`req.user.role === 'admin'`. -/
def updateComment (s : St) (userId : Nat) (isAdmin : Bool) (cid : Nat)
    (text : String) : Resp × St :=
  if (jsTrim text).length == 0 then (.err 400 "Comment text cannot be empty", s)
  else
    match findComment s cid with
    | none => (.err 404 "Comment not found", s)
    | some c =>
      if !c.isActive then (.err 404 "Comment not found", s)
      else if c.user != userId && !isAdmin then
        (.err 403 "Not authorized to edit this comment", s)
      else
        (.ok 200 "Comment updated successfully",
          saveComment s { c with text := jsTrim text, isEdited := true })

/-- `deleteComment` (part_003 lines 175-207): a soft delete performed with
`comment.save()`, not `comment.remove()`. -/
def deleteComment (s : St) (userId : Nat) (isAdmin : Bool) (cid : Nat) :
    Resp × St :=
  match findComment s cid with
  | none => (.err 404 "Comment not found", s)
  | some c =>
    if c.user != userId && !isAdmin then
      (.err 403 "Not authorized to delete this comment", s)
    else
      (.ok 200 "Comment deleted successfully",
        saveComment s { c with isActive := false, text := "[This comment was deleted]" })

/-- `likeComment` (part_003 lines 212-246): toggles the caller in the like
list and persists with `comment.save()`. -/
def likeComment (s : St) (userId : Nat) (cid : Nat) : Resp × St :=
  match findComment s cid with
  | none => (.err 404 "Comment not found", s)
  | some c =>
    if !c.isActive then (.err 404 "Comment not found", s)
    else if c.likes.contains userId then
      (.ok 200 "Comment unliked",
        saveComment s { c with likes := c.likes.erase userId })
    else
      (.ok 200 "Comment liked",
        saveComment s { c with likes := c.likes ++ [userId] })

/-- A store holding one active post with no comments yet, used to evaluate
the comment-counter behaviour on concrete operations. -/
def st0 : St :=
  { posts := [{ id := 1, isActive := true, commentsCount := 0 }]
    comments := [], nextId := 10 }

/-- State after creating one top-level comment (id 10) under post 1. -/
def st1 : St := (createComment st0 7 1 "nice" none).2

/-- Claim C1 fails on the code: `commentSchema.post('save')` runs after
every `save()`, and `deleteComment` soft-deletes via `save()`, so the post's
`commentsCount` is incremented (not decremented) by deletion, and is also
incremented by editing and liking.  This theorem evaluates the embedded code
at the failing input: after one top-level comment is created under post 1
the counter is 1 (the only part of the claim that holds); soft-deleting that
comment drives it to 2 instead of 0; editing drives it to 2 instead of
staying 1; liking likewise. -/
theorem c1_counter_violated :
    (findPost st1 1).map (fun p => p.commentsCount) = some 1 ∧
    (findPost (deleteComment st1 7 false 10).2 1).map (fun p => p.commentsCount)
      = some 2 ∧
    (findPost (updateComment st1 7 false 10 "edited").2 1).map
      (fun p => p.commentsCount) = some 2 ∧
    (findPost (likeComment st1 9 10).2 1).map (fun p => p.commentsCount)
      = some 2 := by
  decide

end Comments

namespace Notif

/-! Embedding of `src/services/notificationService.js` (part_022),
`src/models/Notification.js` (part_010), `src/models/DeviceToken.js`, and the
admin retry handler of `src/controllers/adminNotificationController.js`
(part_005, lines 529-571).  The external push transport
(`admin.messaging().sendEachForMulticast`) is an oracle `push : Nat → Bool`
giving the per-token success flag, matching the one-response-per-token shape
of the transport's reply. -/

/-- `deliveryStatus` vocabulary of `notificationSchema`. -/
inductive DStatus where
  | pending
  | sent
  | delivered
  | failed
  | read
deriving Repr, DecidableEq

/-- The notification payload handed to `sendToUser` (`notificationData`). -/
structure NotifData where
  sentBy : Option Nat
  title : String
  body : String
  ntype : String
  priority : String
deriving Repr, DecidableEq

/-- A Notification document (`notificationSchema`), the fields the verified
operations read or write. -/
structure NotificationDoc where
  id : Nat
  sentBy : Option Nat
  recipient : Nat
  title : String
  body : String
  ntype : String
  priority : String
  deliveryStatus : DStatus
  errorMessage : Option String
  retryCount : Nat
  sentAt : Option Int
  scheduledFor : Option Int
  isScheduled : Bool
  isActive : Bool
deriving Repr, DecidableEq

/-- A DeviceToken document (`deviceTokenSchema`). -/
structure TokenDoc where
  token : Nat
  user : Nat
  isActive : Bool
  failureCount : Nat
deriving Repr, DecidableEq

/-- The document store visible to the notification subsystem. -/
structure St where
  notifications : List NotificationDoc
  tokens : List TokenDoc
  nextId : Nat
deriving Repr, DecidableEq

/-- `DeviceToken.getActiveTokens(userId)`: active tokens owned by the user. -/
def getActiveTokens (s : St) (userId : Nat) : List TokenDoc :=
  s.tokens.filter (fun t => t.user == userId && t.isActive)

/-- `DeviceToken.markAsFailed(token, reason)`: bump the failure counter and
deactivate once it reaches 5. -/
def markAsFailed (s : St) (tok : Nat) : St :=
  { s with tokens := s.tokens.map (fun t =>
      if t.token == tok then
        if t.failureCount + 1 ≥ 5 then
          { t with failureCount := t.failureCount + 1, isActive := false }
        else { t with failureCount := t.failureCount + 1 }
      else t) }

def findNotif (s : St) (nid : Nat) : Option NotificationDoc :=
  s.notifications.find? (fun n => n.id == nid)

/-- Write back a notification document selected by id (a `save()` of the
fetched document, or a `findByIdAndUpdate`). -/
def updateNotif (s : St) (nid : Nat) (f : NotificationDoc → NotificationDoc) : St :=
  { s with notifications := s.notifications.map (fun n =>
      if n.id == nid then f n else n) }

/-- The pending Notification row persisted by `sendToUser`
(`Notification.create(...)`, part_022 lines 24-35). -/
def newNotif (s : St) (userId : Nat) (nd : NotifData) : NotificationDoc :=
  { id := s.nextId, sentBy := nd.sentBy, recipient := userId
    title := nd.title, body := nd.body, ntype := nd.ntype
    priority := nd.priority, deliveryStatus := .pending
    errorMessage := none, retryCount := 0, sentAt := none
    scheduledFor := none, isScheduled := false, isActive := true }

/-- The status write-back `sendToUser` performs on its created notification
after the transport responds (part_022 lines 74-112): `sent` when at least
one token succeeded, else `failed`; `sentAt` stamped; `errorMessage` set
when every token failed. -/
def sendUpd (push : Nat → Bool) (now : Int) (s : St) (userId : Nat)
    (n : NotificationDoc) : NotificationDoc :=
  let tokens := (getActiveTokens s userId).map (fun dt => dt.token)
  let successCount := (tokens.filter push).length
  let failedTokens := tokens.filter (fun t => !(push t))
  { n with
    deliveryStatus := if successCount > 0 then .sent else .failed
    sentAt := some now
    errorMessage :=
      if failedTokens.length > 0 && successCount == 0 then
        some "Failed to send to all devices"
      else n.errorMessage }

/-- The non-throwing body of `sendToUser`: persist the pending row, feed the
transport response's per-token failures back onto the device tokens, then
save the delivery status. -/
def sendCore (push : Nat → Bool) (now : Int) (s : St) (userId : Nat)
    (nd : NotifData) : St :=
  let tokens := (getActiveTokens s userId).map (fun dt => dt.token)
  let s1 : St :=
    { s with notifications := s.notifications ++ [newNotif s userId nd]
             nextId := s.nextId + 1 }
  let failedTokens := tokens.filter (fun t => !(push t))
  let s2 := failedTokens.foldl markAsFailed s1
  updateNotif s2 s.nextId (sendUpd push now s userId)

/-- `NotificationService.sendToUser` (part_022 lines 10-126).  Returns the
new store plus either the created notification's id or the thrown error.
The token check precedes `Notification.create`, so the error path leaves the
store untouched. -/
def sendToUser (push : Nat → Bool) (now : Int) (s : St) (userId : Nat)
    (nd : NotifData) : St × Except String Nat :=
  if (getActiveTokens s userId).isEmpty then
    (s, .error "No active device tokens found for user")
  else
    (sendCore push now s userId nd, .ok s.nextId)

/-- The query filter of `processScheduledNotifications`: scheduled, due,
still pending, active. -/
def dueFilter (now : Int) (n : NotificationDoc) : Bool :=
  n.isScheduled &&
    (match n.scheduledFor with
     | some t => decide (t ≤ now)
     | none => false) &&
    n.deliveryStatus == DStatus.pending && n.isActive

/-- The payload `processScheduledNotifications` and the retry handler rebuild
from a stored notification before re-sending it. -/
def dataOf (n : NotificationDoc) : NotifData :=
  { sentBy := n.sentBy, title := n.title, body := n.body
    ntype := n.ntype, priority := n.priority }

/-- The write `notification.isScheduled = false` performed by the sweep. -/
def schedFlip (m : NotificationDoc) : NotificationDoc :=
  { m with isScheduled := false }

/-- One iteration of the sweep loop (part_022 lines 229-248): attempt the
send; only when it does not throw, set `isScheduled := false` and save. -/
def processOne (push : Nat → Bool) (now : Int) (s : St) (n : NotificationDoc) :
    St × Bool :=
  let r := sendToUser push now s n.recipient (dataOf n)
  match r.2 with
  | .ok _ => (updateNotif r.1 n.id schedFlip, true)
  | .error _ => (r.1, false)

/-- The sweep loop over the selected notifications, accumulating the
per-notification `{ notificationId, success }` results. -/
def processList (push : Nat → Bool) (now : Int) (s : St)
    (l : List NotificationDoc) : St × List (Nat × Bool) :=
  match l with
  | [] => (s, [])
  | n :: rest =>
    let r1 := processOne push now s n
    let r2 := processList push now r1.1 rest
    (r2.1, (n.id, r1.2) :: r2.2)

/-- `NotificationService.processScheduledNotifications` (part_022 lines
218-255): select all scheduled, due, pending, active notifications and run
the loop. -/
def processScheduledNotifications (push : Nat → Bool) (now : Int) (s : St) :
    St × List (Nat × Bool) :=
  processList push now s (s.notifications.filter (dueFilter now))

/-- `notificationSchema.methods.retry` (part_010 lines 234-239). -/
def retryMethod (n : NotificationDoc) : NotificationDoc :=
  { n with retryCount := n.retryCount + 1, deliveryStatus := .pending
           errorMessage := none }

/-- `retryFailedNotification` (part_005 lines 529-571): only a notification
whose `deliveryStatus` is exactly `failed` may be retried; a permitted retry
runs `notification.retry()` then re-runs `sendToUser`. -/
def retryFailedNotification (push : Nat → Bool) (now : Int) (s : St)
    (nid : Nat) : St × Resp :=
  match findNotif s nid with
  | none => (s, .err 404 "Notification not found")
  | some n =>
    if n.deliveryStatus != DStatus.failed then
      (s, .err 400 "Only failed notifications can be retried")
    else
      let s1 := updateNotif s nid retryMethod
      let r := sendToUser push now s1 n.recipient (dataOf n)
      match r.2 with
      | .ok _ => (r.1, .ok 200 "Notification retry initiated")
      | .error _ => (r.1, .err 500 "Failed to retry notification")

/-- Well-formedness of the store: notification ids are below the id counter
and are pairwise distinct. -/
def WF (s : St) : Prop :=
  (∀ n ∈ s.notifications, n.id < s.nextId) ∧
    (s.notifications.map (fun n => n.id)).Nodup

instance (s : St) : Decidable (WF s) := by
  unfold WF; infer_instance

/-- Claim C3: a send to a recipient who owns zero active device tokens
resolves to an error, and because the token check precedes
`Notification.create`, the store is left untouched — in particular no
Notification record (with any `deliveryStatus`, let alone `sent`) is created
for the request. -/
theorem c3_no_tokens_errors_and_creates_nothing (push : Nat → Bool) (now : Int)
    (s : St) (userId : Nat) (nd : NotifData)
    (h : getActiveTokens s userId = []) :
    sendToUser push now s userId nd
      = (s, .error "No active device tokens found for user") := by
  unfold sendToUser
  rw [h]
  rfl

/-- A concrete store exercising the zero-token path: one user-2 token that is
inactive, one token owned by another user, so user 2 has no active tokens. -/
def c3St : St :=
  { notifications := []
    tokens := [{ token := 40, user := 2, isActive := false, failureCount := 1 },
               { token := 41, user := 3, isActive := true, failureCount := 0 }]
    nextId := 0 }

/-- Witness for C3 at a concrete input. -/
theorem c3_no_tokens_errors_and_creates_nothing_witness :
    getActiveTokens c3St 2 = [] ∧
      sendToUser (fun _ => true) 100 c3St 2
          { sentBy := none, title := "t", body := "b", ntype := "general"
            priority := "medium" }
        = (c3St, .error "No active device tokens found for user") :=
  ⟨by decide, c3_no_tokens_errors_and_creates_nothing (fun _ => true) 100 c3St 2
      { sentBy := none, title := "t", body := "b", ntype := "general"
        priority := "medium" } (by decide)⟩

end Notif

namespace Notif

/-- `find?` by id commutes with an id-preserving map. -/
theorem find?_map_idpres (g : NotificationDoc → NotificationDoc)
    (hg : ∀ n, (g n).id = n.id) (l : List NotificationDoc) (k : Nat) :
    (l.map g).find? (fun n => n.id == k)
      = (l.find? (fun n => n.id == k)).map g := by
  induction l with
  | nil => rfl
  | cons a t ih =>
    by_cases h : a.id = k
    · rw [List.map_cons, List.find?_cons_of_pos _ (by simp [hg, h]),
        List.find?_cons_of_pos _ (by simp [h])]
      rfl
    · rw [List.map_cons, List.find?_cons_of_neg _ (by simp [hg, h]),
        List.find?_cons_of_neg _ (by simp [h]), ih]

/-- Appending a document whose id is not the searched one does not change
`find?` by that id. -/
theorem find?_append_id_ne (l : List NotificationDoc) (x : NotificationDoc)
    (k : Nat) (hx : x.id ≠ k) :
    (l ++ [x]).find? (fun n => n.id == k) = l.find? (fun n => n.id == k) := by
  induction l with
  | nil =>
    rw [List.nil_append, List.find?_cons_of_neg _ (by simp [hx])]
  | cons a t ih =>
    by_cases h : a.id = k
    · rw [List.cons_append, List.find?_cons_of_pos _ (by simp [h]),
        List.find?_cons_of_pos _ (by simp [h])]
    · rw [List.cons_append, List.find?_cons_of_neg _ (by simp [h]),
        List.find?_cons_of_neg _ (by simp [h]), ih]

/-- With pairwise-distinct ids, `find?` by a member's id returns that
member. -/
theorem find?_id_self (l : List NotificationDoc)
    (hnd : (l.map (fun n => n.id)).Nodup) (n : NotificationDoc) (hn : n ∈ l) :
    l.find? (fun m => m.id == n.id) = some n := by
  induction l with
  | nil => cases hn
  | cons a t ih =>
    rw [List.map_cons, List.nodup_cons] at hnd
    rcases List.mem_cons.mp hn with h | h
    · subst h
      rw [List.find?_cons_of_pos]
      simp
    · have hne : a.id ≠ n.id := by
        intro he
        exact hnd.1 (he ▸ List.mem_map_of_mem (fun m => m.id) h)
      rw [List.find?_cons_of_neg, ih hnd.2 h]
      simp [hne]

theorem findNotif_congr {s t : St} (h : s.notifications = t.notifications)
    (j : Nat) : findNotif s j = findNotif t j := by
  unfold findNotif; rw [h]

/-- `updateNotif` at a different id is invisible to `findNotif`. -/
theorem findNotif_updateNotif_ne (s : St) (i j : Nat)
    (f : NotificationDoc → NotificationDoc) (hf : ∀ n, (f n).id = n.id)
    (hij : i ≠ j) :
    findNotif (updateNotif s i f) j = findNotif s j := by
  unfold findNotif updateNotif
  rw [show (fun n : NotificationDoc => if n.id == i then f n else n)
        = (fun n => if n.id == i then f n else n) from rfl]
  rw [find?_map_idpres (fun n => if n.id == i then f n else n)
        (fun n => by by_cases h : n.id = i <;> simp [h, hf])]
  cases h : s.notifications.find? (fun n => n.id == j) with
  | none => rfl
  | some d =>
    have hd : d.id = j := by simpa using List.find?_some h
    simp [hd, hij.symm]

/-- `updateNotif` at the searched id applies the update to the found
document. -/
theorem findNotif_updateNotif_eq (s : St) (i : Nat)
    (f : NotificationDoc → NotificationDoc) (hf : ∀ n, (f n).id = n.id) :
    findNotif (updateNotif s i f) i = (findNotif s i).map f := by
  unfold findNotif updateNotif
  rw [find?_map_idpres (fun n => if n.id == i then f n else n)
        (fun n => by by_cases h : n.id = i <;> simp [h, hf])]
  cases h : s.notifications.find? (fun n => n.id == i) with
  | none => rfl
  | some d =>
    have hd : d.id = i := by simpa using List.find?_some h
    simp [hd]

theorem markAsFailed_notifications (s : St) (tok : Nat) :
    (markAsFailed s tok).notifications = s.notifications := rfl

theorem markAsFailed_nextId (s : St) (tok : Nat) :
    (markAsFailed s tok).nextId = s.nextId := rfl

theorem foldl_markAsFailed_notifications (l : List Nat) :
    ∀ s : St, (l.foldl markAsFailed s).notifications = s.notifications := by
  induction l with
  | nil => intro s; rfl
  | cons a t ih => intro s; rw [List.foldl_cons, ih, markAsFailed_notifications]

theorem foldl_markAsFailed_nextId (l : List Nat) :
    ∀ s : St, (l.foldl markAsFailed s).nextId = s.nextId := by
  induction l with
  | nil => intro s; rfl
  | cons a t ih => intro s; rw [List.foldl_cons, ih, markAsFailed_nextId]

theorem sendUpd_id (push : Nat → Bool) (now : Int) (s : St) (userId : Nat)
    (n : NotificationDoc) : (sendUpd push now s userId n).id = n.id := rfl

theorem updateNotif_nextId (s : St) (i : Nat)
    (f : NotificationDoc → NotificationDoc) :
    (updateNotif s i f).nextId = s.nextId := rfl

theorem sendCore_nextId (push : Nat → Bool) (now : Int) (s : St)
    (userId : Nat) (nd : NotifData) :
    (sendCore push now s userId nd).nextId = s.nextId + 1 := by
  unfold sendCore
  rw [updateNotif_nextId, foldl_markAsFailed_nextId]

/-- Documents that existed before a `sendToUser` run are untouched by it:
it only appends a fresh document and rewrites that document's status. -/
theorem sendCore_frame (push : Nat → Bool) (now : Int) (s : St)
    (userId : Nat) (nd : NotifData) (j : Nat) (hj : j < s.nextId) :
    findNotif (sendCore push now s userId nd) j = findNotif s j := by
  unfold sendCore
  rw [findNotif_updateNotif_ne _ _ _ _ (fun n => sendUpd_id push now s userId n)
        (Nat.ne_of_gt hj)]
  rw [findNotif_congr (foldl_markAsFailed_notifications _ _) j]
  unfold findNotif
  exact find?_append_id_ne _ _ _ (Nat.ne_of_gt hj)

theorem sendToUser_frame (push : Nat → Bool) (now : Int) (s : St)
    (userId : Nat) (nd : NotifData) (j : Nat) (hj : j < s.nextId) :
    findNotif (sendToUser push now s userId nd).1 j = findNotif s j := by
  unfold sendToUser
  split
  · rfl
  · exact sendCore_frame push now s userId nd j hj

theorem sendToUser_nextId_le (push : Nat → Bool) (now : Int) (s : St)
    (userId : Nat) (nd : NotifData) :
    s.nextId ≤ (sendToUser push now s userId nd).1.nextId := by
  unfold sendToUser
  split
  · exact Nat.le_refl _
  · rw [sendCore_nextId]; exact Nat.le_succ _

theorem sendToUser_error_state (push : Nat → Bool) (now : Int) (s : St)
    (userId : Nat) (nd : NotifData) (e : String)
    (h : (sendToUser push now s userId nd).2 = .error e) :
    (sendToUser push now s userId nd).1 = s := by
  unfold sendToUser at h ⊢
  by_cases hc : (getActiveTokens s userId).isEmpty
  · rw [if_pos hc]
  · rw [if_neg hc] at h
    cases h

end Notif

namespace Notif

theorem map_id_of_idpres (g : NotificationDoc → NotificationDoc)
    (hg : ∀ n, (g n).id = n.id) (l : List NotificationDoc) :
    (l.map g).map (fun n => n.id) = l.map (fun n => n.id) := by
  induction l with
  | nil => rfl
  | cons a t ih => simp [hg, ih]

theorem WF_of_eq {s t : St} (h1 : s.notifications = t.notifications)
    (h2 : s.nextId = t.nextId) (hwf : WF t) : WF s := by
  unfold WF at *
  rw [h1, h2]
  exact hwf

theorem updateNotif_WF (s : St) (i : Nat) (f : NotificationDoc → NotificationDoc)
    (hf : ∀ n, (f n).id = n.id) (hwf : WF s) : WF (updateNotif s i f) := by
  constructor
  · intro n hn
    rcases List.mem_map.mp hn with ⟨m, hm, rfl⟩
    have hid : (if m.id == i then f m else m).id = m.id := by
      by_cases h : m.id = i <;> simp [h, hf]
    rw [updateNotif_nextId]
    show (if m.id == i then f m else m).id < s.nextId
    rw [hid]
    exact hwf.1 m hm
  · rw [show (updateNotif s i f).notifications
          = s.notifications.map (fun n => if n.id == i then f n else n) from rfl]
    rw [map_id_of_idpres _ (fun n => by by_cases h : n.id = i <;> simp [h, hf])]
    exact hwf.2

theorem WF_append_fresh (s : St) (x : NotificationDoc) (hx : x.id = s.nextId)
    (hwf : WF s) :
    WF { s with notifications := s.notifications ++ [x], nextId := s.nextId + 1 } := by
  constructor
  · intro n hn
    rcases List.mem_append.mp hn with h | h
    · exact Nat.lt_succ_of_lt (hwf.1 n h)
    · rw [List.mem_singleton.mp h, hx]
      exact Nat.lt_succ_self _
  · show ((s.notifications ++ [x]).map (fun n => n.id)).Nodup
    rw [List.map_append]
    apply List.Nodup.append hwf.2 (List.nodup_singleton _)
    rw [List.disjoint_singleton]
    show x.id ∉ s.notifications.map (fun n => n.id)
    rw [hx]
    intro hmem
    rcases List.mem_map.mp hmem with ⟨m, hm, hid⟩
    exact absurd hid (Nat.ne_of_lt (hwf.1 m hm))

theorem sendCore_WF (push : Nat → Bool) (now : Int) (s : St) (userId : Nat)
    (nd : NotifData) (hwf : WF s) : WF (sendCore push now s userId nd) := by
  unfold sendCore
  apply updateNotif_WF _ _ _ (fun n => sendUpd_id push now s userId n)
  apply WF_of_eq (foldl_markAsFailed_notifications _ _)
    (foldl_markAsFailed_nextId _ _)
  exact WF_append_fresh s _ rfl hwf

theorem sendToUser_WF (push : Nat → Bool) (now : Int) (s : St) (userId : Nat)
    (nd : NotifData) (hwf : WF s) : WF (sendToUser push now s userId nd).1 := by
  unfold sendToUser
  split
  · exact hwf
  · exact sendCore_WF push now s userId nd hwf

theorem processOne_frame (push : Nat → Bool) (now : Int) (s : St)
    (n : NotificationDoc) (j : Nat) (hj : j < s.nextId) (hne : j ≠ n.id) :
    findNotif (processOne push now s n).1 j = findNotif s j := by
  unfold processOne
  cases h : (sendToUser push now s n.recipient (dataOf n)).2 with
  | ok v =>
    simp only [h]
    rw [findNotif_updateNotif_ne _ _ _ schedFlip (fun m => rfl) (Ne.symm hne)]
    exact sendToUser_frame push now s n.recipient (dataOf n) j hj
  | error e =>
    simp only [h]
    exact sendToUser_frame push now s n.recipient (dataOf n) j hj

theorem processOne_nextId_le (push : Nat → Bool) (now : Int) (s : St)
    (n : NotificationDoc) : s.nextId ≤ (processOne push now s n).1.nextId := by
  unfold processOne
  cases h : (sendToUser push now s n.recipient (dataOf n)).2 with
  | ok v =>
    simp only [h]
    rw [updateNotif_nextId]
    exact sendToUser_nextId_le push now s n.recipient (dataOf n)
  | error e =>
    simp only [h]
    exact sendToUser_nextId_le push now s n.recipient (dataOf n)

theorem processOne_WF (push : Nat → Bool) (now : Int) (s : St)
    (n : NotificationDoc) (hwf : WF s) : WF (processOne push now s n).1 := by
  unfold processOne
  cases h : (sendToUser push now s n.recipient (dataOf n)).2 with
  | ok v =>
    simp only [h]
    exact updateNotif_WF _ _ schedFlip (fun m => rfl)
      (sendToUser_WF push now s n.recipient (dataOf n) hwf)
  | error e =>
    simp only [h]
    exact sendToUser_WF push now s n.recipient (dataOf n) hwf

/-- One sweep iteration either completes the send and clears `isScheduled`
on the processed document, or the send throws and the whole store is left
unchanged. -/
theorem processOne_cases (push : Nat → Bool) (now : Int) (s : St)
    (n : NotificationDoc) (hn : n.id < s.nextId) :
    ((processOne push now s n).2 = true ∧
      findNotif (processOne push now s n).1 n.id
        = (findNotif s n.id).map schedFlip) ∨
    ((processOne push now s n).2 = false ∧ (processOne push now s n).1 = s) := by
  unfold processOne
  cases h : (sendToUser push now s n.recipient (dataOf n)).2 with
  | ok v =>
    left
    simp only [h]
    refine ⟨by simp, ?_⟩
    rw [findNotif_updateNotif_eq _ _ schedFlip (fun m => rfl),
      sendToUser_frame push now s n.recipient (dataOf n) n.id hn]
  | error e =>
    right
    simp only [h]
    exact ⟨by simp, sendToUser_error_state push now s n.recipient (dataOf n) e h⟩

end Notif

namespace Notif

theorem processList_cons (push : Nat → Bool) (now : Int) (s : St)
    (a : NotificationDoc) (rest : List NotificationDoc) :
    processList push now s (a :: rest)
      = ((processList push now (processOne push now s a).1 rest).1,
         (a.id, (processOne push now s a).2)
           :: (processList push now (processOne push now s a).1 rest).2) := rfl

theorem processList_frame (push : Nat → Bool) (now : Int) :
    ∀ (l : List NotificationDoc) (s : St) (j : Nat), j < s.nextId →
      (∀ m ∈ l, m.id ≠ j) →
      findNotif (processList push now s l).1 j = findNotif s j := by
  intro l
  induction l with
  | nil => intro s j _ _; rfl
  | cons a rest ih =>
    intro s j hj hm
    rw [processList_cons]
    rw [ih (processOne push now s a).1 j
          (Nat.lt_of_lt_of_le hj (processOne_nextId_le push now s a))
          (fun m hm' => hm m (List.mem_cons_of_mem a hm'))]
    exact processOne_frame push now s a j hj
      (fun he => hm a (List.mem_cons_self a rest) he.symm)

/-- The heart of the sweep's correctness: processing a selection with
pairwise-distinct ids hands every selected notification exactly one result
entry; a `true` entry means its document now has `isScheduled := false`, a
`false` entry means its document is exactly as before the sweep. -/
theorem processList_spec (push : Nat → Bool) (now : Int) :
    ∀ (l : List NotificationDoc) (s : St), WF s →
      (∀ m ∈ l, m.id < s.nextId) → (l.map (fun m => m.id)).Nodup →
      ∀ n ∈ l, findNotif s n.id = some n →
      ((n.id, true) ∈ (processList push now s l).2 ∧
        findNotif (processList push now s l).1 n.id = some (schedFlip n)) ∨
      ((n.id, false) ∈ (processList push now s l).2 ∧
        findNotif (processList push now s l).1 n.id = some n) := by
  intro l
  induction l with
  | nil => intro s _ _ _ n hn; cases hn
  | cons a rest ih =>
    intro s hwf hbound hnd n hn hfind
    have hwf1 := processOne_WF push now s a hwf
    have hle := processOne_nextId_le push now s a
    rw [List.map_cons, List.nodup_cons] at hnd
    rcases List.mem_cons.mp hn with rfl | hn'
    · have hrest : ∀ m ∈ rest, m.id ≠ n.id := by
        intro m hm he
        exact hnd.1 (he ▸ List.mem_map_of_mem (fun x => x.id) hm)
      have hframe := processList_frame push now rest (processOne push now s n).1
        n.id (Nat.lt_of_lt_of_le (hbound n (List.mem_cons_self n rest)) hle) hrest
      rcases processOne_cases push now s n (hbound n (List.mem_cons_self n rest))
        with ⟨hok, hfindr⟩ | ⟨hfail, hstate⟩
      · left
        rw [processList_cons, hok]
        refine ⟨List.mem_cons_self _ _, ?_⟩
        rw [hframe, hfindr, hfind]
        rfl
      · right
        rw [processList_cons, hfail]
        refine ⟨List.mem_cons_self _ _, ?_⟩
        rw [hframe, hstate, hfind]
    · have ha : a.id ≠ n.id := by
        intro he
        exact hnd.1 (he ▸ List.mem_map_of_mem (fun x => x.id) hn')
      have hfind1 : findNotif (processOne push now s a).1 n.id = some n := by
        rw [processOne_frame push now s a n.id
              (hbound n (List.mem_cons_of_mem a hn')) (fun he => ha he.symm)]
        exact hfind
      have := ih (processOne push now s a).1 hwf1
        (fun m hm => Nat.lt_of_lt_of_le (hbound m (List.mem_cons_of_mem a hm)) hle)
        hnd.2 n hn' hfind1
      rw [processList_cons]
      rcases this with ⟨hmem, hf⟩ | ⟨hmem, hf⟩
      · exact Or.inl ⟨List.mem_cons_of_mem _ hmem, hf⟩
      · exact Or.inr ⟨List.mem_cons_of_mem _ hmem, hf⟩

/-- Claim C2 as amended: one run of the sweep gives every due, pending,
scheduled, active notification exactly one delivery attempt; when that
attempt completes without throwing (including the case where the transport
fails for every token and the created delivery record is marked `failed`),
the notification's `isScheduled` flag is set to `false`; when the attempt
throws (notably: the recipient owns zero active device tokens), the
notification is left completely unchanged — still scheduled and pending —
so it will be selected again by the next sweep. -/
theorem c2_sweep_clears_flag_unless_send_throws (push : Nat → Bool)
    (now : Int) (s : St) (hwf : WF s) (n : NotificationDoc)
    (hn : n ∈ s.notifications.filter (dueFilter now)) :
    ((n.id, true) ∈ (processScheduledNotifications push now s).2 ∧
      findNotif (processScheduledNotifications push now s).1 n.id
        = some (schedFlip n)) ∨
    ((n.id, false) ∈ (processScheduledNotifications push now s).2 ∧
      findNotif (processScheduledNotifications push now s).1 n.id = some n) := by
  have hmem : n ∈ s.notifications := List.mem_of_mem_filter hn
  have hnd : ((s.notifications.filter (dueFilter now)).map
      (fun m => m.id)).Nodup :=
    hwf.2.sublist ((List.filter_sublist s.notifications).map (fun m => m.id))
  exact processList_spec push now (s.notifications.filter (dueFilter now)) s hwf
    (fun m hm => hwf.1 m (List.mem_of_mem_filter hm)) hnd n hn
    (find?_id_self s.notifications hwf.2 n hmem)

end Notif

namespace Notif

/-- A concrete store: notification 0 is scheduled for time 5, pending and
active, but its recipient (user 1) owns no device tokens at all. -/
def c2St : St :=
  { notifications := [{ id := 0, sentBy := some 9, recipient := 1
                        title := "t", body := "b", ntype := "general"
                        priority := "medium", deliveryStatus := .pending
                        errorMessage := none, retryCount := 0, sentAt := none
                        scheduledFor := some 5, isScheduled := true
                        isActive := true }]
    tokens := [], nextId := 1 }

/-- Claim C2 as stated is false on the code: notification 0 of `c2St` is
due (scheduled for 5, swept at 10), pending and active, so the sweep selects
it and attempts delivery; the attempt throws (its recipient has zero active
device tokens), and because the code flips `isScheduled` only after a
successful `sendToUser`, the notification still has `isScheduled = true`
after the sweep — it remains in the scheduled state. -/
theorem c2_counterexample :
    (c2St.notifications.filter (dueFilter 10)).length = 1 ∧
      (processScheduledNotifications (fun _ => true) 10 c2St).2 = [(0, false)] ∧
      (findNotif (processScheduledNotifications (fun _ => true) 10 c2St).1 0).map
          (fun n => n.isScheduled) = some true := by
  decide

/-- Witness for the amended C2 theorem: a store with two due notifications,
one deliverable (user 1 has an active token) and one not (user 2 has none);
the sweep clears the flag on the first. -/
def c2WSt : St :=
  { notifications := [{ id := 0, sentBy := some 9, recipient := 1
                        title := "t", body := "b", ntype := "general"
                        priority := "medium", deliveryStatus := .pending
                        errorMessage := none, retryCount := 0, sentAt := none
                        scheduledFor := some 5, isScheduled := true
                        isActive := true },
                      { id := 1, sentBy := some 9, recipient := 2
                        title := "u", body := "c", ntype := "general"
                        priority := "medium", deliveryStatus := .pending
                        errorMessage := none, retryCount := 0, sentAt := none
                        scheduledFor := some 6, isScheduled := true
                        isActive := true }]
    tokens := [{ token := 50, user := 1, isActive := true, failureCount := 0 }]
    nextId := 2 }

theorem c2_sweep_clears_flag_unless_send_throws_witness :
    WF c2WSt ∧
      (((0 : Nat), true) ∈ (processScheduledNotifications (fun _ => true) 10 c2WSt).2 ∧
          findNotif (processScheduledNotifications (fun _ => true) 10 c2WSt).1 0
            = some (schedFlip (c2WSt.notifications.get ⟨0, by decide⟩)) ∨
        ((0 : Nat), false) ∈ (processScheduledNotifications (fun _ => true) 10 c2WSt).2 ∧
          findNotif (processScheduledNotifications (fun _ => true) 10 c2WSt).1 0
            = some (c2WSt.notifications.get ⟨0, by decide⟩)) :=
  ⟨by decide,
    c2_sweep_clears_flag_unless_send_throws (fun _ => true) 10 c2WSt (by decide)
      (c2WSt.notifications.get ⟨0, by decide⟩) (by decide)⟩

/-- Claim C7: the admin retry of a notification found in the store is
permitted only when its `deliveryStatus` is exactly `failed`; any other
status is rejected with an error response and the store is left unchanged.
A permitted retry leaves the notification's document with `retryCount`
incremented by exactly 1 and `deliveryStatus` reset to `pending`
(`notification.retry()`), and the final store is the one produced by
re-running the single-recipient send procedure `sendToUser` on the updated
store. -/
theorem c7_retry_only_failed (push : Nat → Bool) (now : Int) (s : St)
    (nid : Nat) (n : NotificationDoc) (hwf : WF s)
    (hfind : findNotif s nid = some n) :
    (n.deliveryStatus ≠ DStatus.failed →
      retryFailedNotification push now s nid
        = (s, .err 400 "Only failed notifications can be retried")) ∧
    (n.deliveryStatus = DStatus.failed →
      findNotif (retryFailedNotification push now s nid).1 nid
          = some (retryMethod n) ∧
        (retryMethod n).retryCount = n.retryCount + 1 ∧
        (retryMethod n).deliveryStatus = DStatus.pending ∧
        (retryFailedNotification push now s nid).1
          = (sendToUser push now (updateNotif s nid retryMethod) n.recipient
              (dataOf n)).1) := by
  have hid : n.id = nid := by
    have := List.find?_some hfind
    simpa using this
  have hlt : nid < s.nextId := hid ▸ hwf.1 n (List.mem_of_find?_eq_some hfind)
  constructor
  · intro h
    unfold retryFailedNotification
    rw [hfind]
    dsimp only
    rw [if_pos (bne_iff_ne.mpr h)]
  · intro h
    have hstate : (retryFailedNotification push now s nid).1
        = (sendToUser push now (updateNotif s nid retryMethod) n.recipient
            (dataOf n)).1 := by
      unfold retryFailedNotification
      rw [hfind]
      dsimp only
      rw [if_neg (by simp [h])]
      cases hsu : (sendToUser push now (updateNotif s nid retryMethod)
          n.recipient (dataOf n)).2 with
      | ok v => simp only [hsu]
      | error e => simp only [hsu]
    refine ⟨?_, rfl, rfl, hstate⟩
    rw [hstate]
    rw [sendToUser_frame push now (updateNotif s nid retryMethod) n.recipient
          (dataOf n) nid (by rw [updateNotif_nextId]; exact hlt)]
    rw [findNotif_updateNotif_eq s nid retryMethod (fun m => rfl), hfind]
    rfl

/-- A concrete store for the C7 witness: notification 0 is `failed`,
notification 1 is `sent`; user 1 owns an active token. -/
def c7St : St :=
  { notifications := [{ id := 0, sentBy := some 9, recipient := 1
                        title := "t", body := "b", ntype := "general"
                        priority := "medium", deliveryStatus := .failed
                        errorMessage := some "Failed to send to all devices"
                        retryCount := 0, sentAt := some 3
                        scheduledFor := none, isScheduled := false
                        isActive := true }]
    tokens := [{ token := 60, user := 1, isActive := true, failureCount := 0 }]
    nextId := 1 }

def c7N : NotificationDoc :=
  { id := 0, sentBy := some 9, recipient := 1, title := "t", body := "b"
    ntype := "general", priority := "medium", deliveryStatus := .failed
    errorMessage := some "Failed to send to all devices", retryCount := 0
    sentAt := some 3, scheduledFor := none, isScheduled := false
    isActive := true }

theorem c7_retry_only_failed_witness :
    WF c7St ∧ findNotif c7St 0 = some c7N ∧
      ((c7N.deliveryStatus ≠ DStatus.failed →
        retryFailedNotification (fun _ => true) 20 c7St 0
          = (c7St, .err 400 "Only failed notifications can be retried")) ∧
      (c7N.deliveryStatus = DStatus.failed →
        findNotif (retryFailedNotification (fun _ => true) 20 c7St 0).1 0
            = some (retryMethod c7N) ∧
          (retryMethod c7N).retryCount = c7N.retryCount + 1 ∧
          (retryMethod c7N).deliveryStatus = DStatus.pending ∧
          (retryFailedNotification (fun _ => true) 20 c7St 0).1
            = (sendToUser (fun _ => true) 20 (updateNotif c7St 0 retryMethod)
                c7N.recipient (dataOf c7N)).1)) :=
  ⟨by decide, by decide,
    c7_retry_only_failed (fun _ => true) 20 c7St 0 c7N (by decide) (by decide)⟩

end Notif

/-- Stable insertion step for a JavaScript-style numeric comparator:
the inserted element goes before the first element it does not compare
greater than, so equal elements keep their original relative order. -/
def insertBy {α : Type} (cmp : α → α → Int) (a : α) : List α → List α
  | [] => [a]
  | b :: t => if cmp a b ≤ 0 then a :: b :: t else b :: insertBy cmp a t

/-- `Array.prototype.sort(cmp)` (stable since ES2019) for a comparator that
induces a total preorder: any stable sort agrees with stable insertion
sort, so this is an exact model of the call. -/
def jsSort {α : Type} (cmp : α → α → Int) : List α → List α
  | [] => []
  | a :: t => insertBy cmp a (jsSort cmp t)

theorem mem_insertBy {α : Type} (cmp : α → α → Int) (x a : α) :
    ∀ l : List α, a ∈ insertBy cmp x l ↔ a = x ∨ a ∈ l := by
  intro l
  induction l with
  | nil => simp [insertBy]
  | cons b t ih =>
    unfold insertBy
    split
    · simp
    · rw [List.mem_cons, ih, List.mem_cons]
      tauto

theorem mem_jsSort {α : Type} (cmp : α → α → Int) (a : α) :
    ∀ l : List α, a ∈ jsSort cmp l ↔ a ∈ l := by
  intro l
  induction l with
  | nil => simp [jsSort]
  | cons b t ih =>
    unfold jsSort
    rw [mem_insertBy, ih, List.mem_cons]

namespace Feed

/-! Embedding of the public feed and public single-post endpoints of
`src/controllers/postController.js`: `getPosts` (lines 146-240) and
`getPost` (lines 247-259), over the Post, User and Follow stores. -/

/-- Moderation status vocabulary of the Post schema. -/
inductive PStatus where
  | inReview
  | live
  | rejected
deriving Repr, DecidableEq

/-- The slice of a Post document the feed reads. -/
structure PostDoc where
  id : Nat
  user : Option Nat
  status : PStatus
  isActive : Bool
  createdAt : Int
deriving Repr, DecidableEq

/-- The slice of a User document the feed reads (for `populate`'s
`match: { isActive: true }`). -/
structure UserDoc where
  id : Nat
  isActive : Bool
deriving Repr, DecidableEq

/-- The document store visible to the feed: users, posts, follow edges
`(follower, following)`. -/
structure St where
  users : List UserDoc
  posts : List PostDoc
  follows : List (Nat × Nat)
deriving Repr, DecidableEq

/-- `Follow.find({ follower: userId }).select('following')` mapped to ids;
empty for an anonymous viewer. -/
def followingIds (s : St) (viewer : Option Nat) : List Nat :=
  match viewer with
  | none => []
  | some uid => (s.follows.filter (fun e => e.1 == uid)).map (fun e => e.2)

/-- The feed query `{ status: 'live', isActive: true, user: { $exists: true,
$ne: null } }`. -/
def queryFilter (p : PostDoc) : Bool :=
  p.status == PStatus.live && p.isActive && p.user.isSome

/-- `populate({ path: 'user', match: { isActive: true } })`: the post's
author reference resolves to the author's id when the author document
exists and is active; otherwise the populated field is null. -/
def populatedUser (s : St) (p : PostDoc) : Option Nat :=
  match p.user with
  | none => none
  | some uid =>
    match s.users.find? (fun u => u.id == uid) with
    | some u => if u.isActive then some uid else none
    | none => none

/-- `new Date(b.createdAt) - new Date(a.createdAt)`: newest first. -/
def cmpTime (a b : PostDoc) : Int := b.createdAt - a.createdAt

/-- `followingIds.includes(p.user._id.toString())`. -/
def isFollowed (fids : List Nat) (p : PostDoc) : Bool :=
  match p.user with
  | some u => fids.contains u
  | none => false

/-- The `sortedPosts` comparator (lines 208-218): followed-author posts
first, otherwise chronological, newest first. -/
def cmpFeed (fids : List Nat) (a b : PostDoc) : Int :=
  if isFollowed fids a && !(isFollowed fids b) then -1
  else if !(isFollowed fids a) && isFollowed fids b then 1
  else b.createdAt - a.createdAt

/-- `Post.find(query).sort({ createdAt: -1 }).skip(skip).limit(limit + 1)`. -/
def fetchedPosts (s : St) (page limit : Nat) : List PostDoc :=
  ((jsSort cmpTime (s.posts.filter queryFilter)).drop ((page - 1) * limit)).take
    (limit + 1)

/-- `validPosts`: drop the extra over-fetched post, then keep only posts
whose populated author is non-null (lines 196-203). -/
def feedValidPosts (s : St) (page limit : Nat) : List PostDoc :=
  let posts := fetchedPosts s page limit
  let finalPosts := if posts.length > limit then posts.take limit else posts
  finalPosts.filter (fun p => (populatedUser s p).isSome)

/-- The feed endpoint's response payload. -/
structure FeedResult where
  posts : List PostDoc
  page : Nat
  limit : Nat
  total : Nat
  hasMore : Bool
  nextPage : Option Nat
deriving Repr, DecidableEq

/-- `getPosts` (lines 146-240): clamp paging, resolve the viewer's follow
targets, fetch one page of live active posts (newest first), keep posts
with a populated active author, sort followed authors first, and shape the
response. -/
def getPosts (s : St) (viewer : Option Nat) (pageReq limitReq : Nat) :
    FeedResult :=
  let page := max 1 pageReq
  let limit := min 30 (max 10 limitReq)
  let fids := followingIds s viewer
  let sortedPosts := jsSort (cmpFeed fids) (feedValidPosts s page limit)
  let totalCount := (s.posts.filter queryFilter).length
  { posts := sortedPosts, page := page, limit := limit, total := totalCount
    hasMore := decide (sortedPosts.length ≥ limit)
    nextPage := if sortedPosts.length ≥ limit then some (page + 1) else none }

/-- `getPost` (lines 247-259): the single-post fetch answers 404 unless the
post exists, is active, and has moderation status `live`. -/
def getPost (s : St) (pid : Nat) : Option PostDoc :=
  match s.posts.find? (fun p => p.id == pid) with
  | none => none
  | some p => if !p.isActive || p.status != PStatus.live then none else some p

end Feed

namespace Feed

/-- Claim C4: every post in the public feed response is `live` and active,
and the public single-post fetch only ever returns a `live`, active post —
for every store and every viewer, including the post's own author. -/
theorem c4_public_views_only_live_active (s : St) (viewer : Option Nat)
    (pageReq limitReq : Nat) :
    (∀ p ∈ (getPosts s viewer pageReq limitReq).posts,
        p.status = PStatus.live ∧ p.isActive = true) ∧
    (∀ pid p, getPost s pid = some p →
        p.status = PStatus.live ∧ p.isActive = true) := by
  constructor
  · intro p hp
    have hp1 : p ∈ feedValidPosts s (max 1 pageReq) (min 30 (max 10 limitReq)) :=
      (mem_jsSort _ p _).mp hp
    unfold feedValidPosts at hp1
    have hp2 := List.mem_of_mem_filter hp1
    have hp3 : p ∈ fetchedPosts s (max 1 pageReq) (min 30 (max 10 limitReq)) := by
      by_cases hc : (fetchedPosts s (max 1 pageReq)
          (min 30 (max 10 limitReq))).length > min 30 (max 10 limitReq)
      · rw [if_pos hc] at hp2
        exact (List.take_sublist _ _).subset hp2
      · rw [if_neg hc] at hp2
        exact hp2
    unfold fetchedPosts at hp3
    have hp4 := (List.drop_sublist _ _).subset ((List.take_sublist _ _).subset hp3)
    have hp5 := (mem_jsSort _ p _).mp hp4
    have hq := List.of_mem_filter hp5
    unfold queryFilter at hq
    simp only [Bool.and_eq_true, beq_iff_eq] at hq
    exact ⟨hq.1.1, hq.1.2⟩
  · intro pid p h
    unfold getPost at h
    cases hf : s.posts.find? (fun p => p.id == pid) with
    | none => rw [hf] at h; cases h
    | some q =>
      rw [hf] at h
      dsimp only at h
      by_cases hc : (!q.isActive || q.status != PStatus.live) = true
      · rw [if_pos hc] at h; cases h
      · rw [if_neg hc] at h
        cases h
        simp only [Bool.or_eq_true, Bool.not_eq_true', bne_iff_ne] at hc
        push_neg at hc
        exact ⟨hc.2, Bool.ne_false_iff.mp hc.1⟩

/-- A concrete store for the feed witnesses: user 1 (active) wrote the live
active post 100 at time 50; post 101 is still `inReview`, post 102 is
inactive, so only post 100 can surface. -/
def c4St : St :=
  { users := [{ id := 1, isActive := true }]
    posts := [{ id := 100, user := some 1, status := .live, isActive := true
                createdAt := 50 },
              { id := 101, user := some 1, status := .inReview
                isActive := true, createdAt := 60 },
              { id := 102, user := some 1, status := .live, isActive := false
                createdAt := 70 }]
    follows := [] }

def c4Post : PostDoc :=
  { id := 100, user := some 1, status := .live, isActive := true
    createdAt := 50 }

/-- Witness for C4: post 100 is in the concrete feed page and is live and
active; the single-post fetch of post 100 is covered by the same theorem. -/
theorem c4_public_views_only_live_active_witness :
    c4Post ∈ (getPosts c4St none 1 10).posts ∧
      (c4Post.status = PStatus.live ∧ c4Post.isActive = true) ∧
      getPost c4St 100 = some c4Post ∧
      (c4Post.status = PStatus.live ∧ c4Post.isActive = true) :=
  ⟨by decide,
    (c4_public_views_only_live_active c4St none 1 10).1 c4Post (by decide),
    by decide,
    (c4_public_views_only_live_active c4St none 1 10).2 100 c4Post (by decide)⟩

end Feed

namespace Feed

/-- Modelled from the spec's words, for comparison with the code's ordering:
"Stable-partition so followed-author posts sort ahead of others, preserving
relative order within each partition". -/
def stablePartition (pred : PostDoc → Bool) (l : List PostDoc) : List PostDoc :=
  l.filter pred ++ l.filter (fun p => !(pred p))

theorem pairwise_insertBy_time (a : PostDoc) :
    ∀ l : List PostDoc, l.Pairwise (fun x y => y.createdAt ≤ x.createdAt) →
      (insertBy cmpTime a l).Pairwise (fun x y => y.createdAt ≤ x.createdAt) := by
  intro l
  induction l with
  | nil => intro _; simp [insertBy]
  | cons b t ih =>
    intro h
    rw [List.pairwise_cons] at h
    unfold insertBy
    by_cases hc : cmpTime a b ≤ 0
    · rw [if_pos hc]
      have hba : b.createdAt ≤ a.createdAt := by
        unfold cmpTime at hc
        linarith
      rw [List.pairwise_cons]
      refine ⟨?_, List.pairwise_cons.mpr h⟩
      intro y hy
      rcases List.mem_cons.mp hy with rfl | hy'
      · exact hba
      · exact le_trans (h.1 y hy') hba
    · rw [if_neg hc]
      have hab : a.createdAt ≤ b.createdAt := by
        unfold cmpTime at hc
        linarith
      rw [List.pairwise_cons]
      refine ⟨?_, ih h.2⟩
      intro y hy
      rcases (mem_insertBy cmpTime a y t).mp hy with rfl | hy'
      · exact hab
      · exact h.1 y hy'

theorem pairwise_jsSort_time :
    ∀ l : List PostDoc,
      (jsSort cmpTime l).Pairwise (fun x y => y.createdAt ≤ x.createdAt) := by
  intro l
  induction l with
  | nil => simp [jsSort]
  | cons a t ih => exact pairwise_insertBy_time a _ ih

theorem insertBy_append_notle {α : Type} (cmp : α → α → Int) (a : α) :
    ∀ (l1 l2 : List α), (∀ b ∈ l1, ¬(cmp a b ≤ 0)) →
      insertBy cmp a (l1 ++ l2) = l1 ++ insertBy cmp a l2 := by
  intro l1
  induction l1 with
  | nil => intro l2 _; rfl
  | cons c t ih =>
    intro l2 h
    rw [List.cons_append]
    simp only [insertBy]
    rw [if_neg (h c (List.mem_cons_self c t)), ih l2
          (fun b hb => h b (List.mem_cons_of_mem c hb)), List.cons_append]

/-- The comparator sort of the feed, applied to a list already sorted
newest-first, is exactly the stable partition by followed author. -/
theorem jsSort_cmpFeed_eq_partition (fids : List Nat) :
    ∀ l : List PostDoc, l.Pairwise (fun x y => y.createdAt ≤ x.createdAt) →
      jsSort (cmpFeed fids) l = stablePartition (isFollowed fids) l := by
  intro l
  induction l with
  | nil => intro _; rfl
  | cons a t ih =>
    intro h
    rw [List.pairwise_cons] at h
    have ihe := ih h.2
    unfold stablePartition at ihe ⊢
    show insertBy (cmpFeed fids) a (jsSort (cmpFeed fids) t) = _
    rw [ihe]
    by_cases hF : isFollowed fids a = true
    · rw [List.filter_cons_of_pos (by simp [hF]),
        List.filter_cons_of_neg (by simp [hF]), List.cons_append]
      cases hc : t.filter (isFollowed fids)
          ++ t.filter (fun p => !(isFollowed fids p)) with
      | nil => rfl
      | cons c rest =>
        have hcmem : c ∈ t.filter (isFollowed fids)
            ++ t.filter (fun p => !(isFollowed fids p)) := by
          rw [hc]; exact List.mem_cons_self c rest
        have hct : c ∈ t := by
          rcases List.mem_append.mp hcmem with h' | h'
          · exact List.mem_of_mem_filter h'
          · exact List.mem_of_mem_filter h'
        have hle : cmpFeed fids a c ≤ 0 := by
          rcases List.mem_append.mp hcmem with h' | h'
          · have hcF := List.of_mem_filter h'
            unfold cmpFeed
            rw [if_neg (by simp [hcF]), if_neg (by simp [hF])]
            have := h.1 c hct
            linarith
          · have hcN := List.of_mem_filter h'
            simp only [Bool.not_eq_true'] at hcN
            unfold cmpFeed
            rw [if_pos (by simp [hF, hcN])]
            decide
        simp only [insertBy]
        rw [if_pos hle]
    · simp only [Bool.not_eq_true] at hF
      rw [List.filter_cons_of_neg (by simp [hF]),
        List.filter_cons_of_pos (by simp [hF])]
      rw [insertBy_append_notle (cmpFeed fids) a _ _ ?side]
      case side =>
        intro b hb
        have hbF := List.of_mem_filter hb
        unfold cmpFeed
        rw [if_neg (by simp [hF]), if_pos (by simp [hF, hbF])]
        decide
      congr 1
      cases htN : t.filter (fun p => !(isFollowed fids p)) with
      | nil => rfl
      | cons c rest =>
        have hcmem : c ∈ t.filter (fun p => !(isFollowed fids p)) := by
          rw [htN]; exact List.mem_cons_self c rest
        have hct : c ∈ t := List.mem_of_mem_filter hcmem
        have hcN := List.of_mem_filter hcmem
        simp only [Bool.not_eq_true'] at hcN
        have hle : cmpFeed fids a c ≤ 0 := by
          unfold cmpFeed
          rw [if_neg (by simp [hF]), if_neg (by simp [hcN])]
          have := h.1 c hct
          linarith
        simp only [insertBy]
        rw [if_pos hle]

theorem feedValidPosts_sorted (s : St) (page limit : Nat) :
    (feedValidPosts s page limit).Pairwise
      (fun x y => y.createdAt ≤ x.createdAt) := by
  have h0 := pairwise_jsSort_time (s.posts.filter queryFilter)
  have hfetched : (fetchedPosts s page limit).Pairwise
      (fun x y => y.createdAt ≤ x.createdAt) := by
    unfold fetchedPosts
    exact (h0.sublist (List.drop_sublist _ _)).sublist (List.take_sublist _ _)
  unfold feedValidPosts
  apply List.Pairwise.sublist (List.filter_sublist _)
  by_cases hc : (fetchedPosts s page limit).length > limit
  · rw [if_pos hc]
    exact hfetched.sublist (List.take_sublist _ _)
  · rw [if_neg hc]
    exact hfetched

/-- Claim C5 as amended: for every store, viewer and paging parameters, the
feed's returned post list is exactly the stable partition of the fetched
valid posts — followed-author posts first, relative order preserved within
each partition (the comparator orders by follow status then recency, and
the fetched posts are already newest-first) — with no randomized jitter of
any kind: the handler reads only the request and the store, so repeated
identical calls return identical, rigidly deterministic results. -/
theorem c5_feed_is_unjittered_stable_partition (s : St) (viewer : Option Nat)
    (pageReq limitReq : Nat) :
    (getPosts s viewer pageReq limitReq).posts
      = stablePartition (isFollowed (followingIds s viewer))
          (feedValidPosts s (max 1 pageReq) (min 30 (max 10 limitReq))) := by
  show jsSort (cmpFeed (followingIds s viewer)) _ = _
  exact jsSort_cmpFeed_eq_partition (followingIds s viewer) _
    (feedValidPosts_sorted s _ _)

end Feed

namespace Feed

/-- A concrete store: viewer 10 follows author 2; author 1's post 1 is
newer (time 100) than author 2's post 2 (time 90); both live and active. -/
def c5St : St :=
  { users := [{ id := 1, isActive := true }, { id := 2, isActive := true }]
    posts := [{ id := 1, user := some 1, status := .live, isActive := true
                createdAt := 100 },
              { id := 2, user := some 2, status := .live, isActive := true
                createdAt := 90 }]
    follows := [(10, 2)] }

def c5A : PostDoc :=
  { id := 1, user := some 1, status := .live, isActive := true
    createdAt := 100 }

def c5B : PostDoc :=
  { id := 2, user := some 2, status := .live, isActive := true
    createdAt := 90 }

/-- Claim C5 as stated is false on the code: the feed's ordering step is the
plain comparator sort — there is no randomized jitter anywhere in the
handler (its output is a function of the request and store alone, with no
randomness source), so repeated identical calls return the identical list.
At this concrete input the returned page is exactly the unperturbed stable
partition `[post 2 (followed author), post 1]`: the "bounded randomized
jitter so that repeated identical calls are not rigidly deterministic" that
the claim asserts does not exist. -/
theorem c5_counterexample :
    (getPosts c5St (some 10) 1 10).posts = [c5B, c5A] ∧
      stablePartition (isFollowed (followingIds c5St (some 10)))
          (feedValidPosts c5St 1 10) = [c5B, c5A] := by
  decide

/-- A JSON value of the pagination envelopes (number, boolean or null). -/
inductive JVal where
  | num (n : Int)
  | bool (b : Bool)
  | null
deriving Repr, DecidableEq

/-- The feed response's `pagination` object (postController lines 227-233),
as the ordered field list of the object literal. -/
def paginationObject (r : FeedResult) : List (String × JVal) :=
  [("page", .num r.page), ("limit", .num r.limit), ("total", .num r.total),
   ("hasMore", .bool r.hasMore),
   ("nextPage", match r.nextPage with | some p => .num p | none => .null)]

/-- The `pagination` object of the other paginated endpoints, embedded from
`getPostComments` (part_003 lines 57-81): `{ page, limit, total, pages:
Math.ceil(total / limit) }` with `limit` clamped to `[1, 50]`. -/
def getPostCommentsPagination (pageReq limitReq total : Nat) :
    List (String × JVal) :=
  let page := max 1 pageReq
  let limit := min 50 (max 1 limitReq)
  [("page", .num page), ("limit", .num limit), ("total", .num total),
   ("pages", .num (((total + limit - 1) / limit : Nat)))]

/-- Claim C9 as stated is false on the code: the feed's pagination object
does contain a `total` field (`total: totalCount` at line 230), at every
input — here evaluated at a concrete one. -/
theorem c9_counterexample :
    ((paginationObject (getPosts c5St none 1 10)).map Prod.fst).contains
      "total" = true := by
  decide

/-- Claim C9 as amended: the feed's pagination envelope has exactly the keys
`page, limit, total, hasMore, nextPage` — unlike the other paginated
endpoints' `{ page, limit, total, pages }` it omits `pages` and carries
`hasMore` (plus `nextPage`), but it does include `total`. -/
theorem c9_feed_envelope_keys (s : St) (viewer : Option Nat)
    (pageReq limitReq : Nat) (cPage cLimit cTotal : Nat) :
    (paginationObject (getPosts s viewer pageReq limitReq)).map Prod.fst
        = ["page", "limit", "total", "hasMore", "nextPage"] ∧
      (getPostCommentsPagination cPage cLimit cTotal).map Prod.fst
        = ["page", "limit", "total", "pages"] := by
  exact ⟨rfl, rfl⟩

end Feed

namespace FollowG

/-! Embedding of `followUser` / `unfollowUser` of
`src/controllers/followController.js` (part_004 lines 408-456) over the
Follow store of `src/models/Follow.js` (part_006). -/

/-- The Follow store: directed edges `(follower, following)`. -/
structure St where
  edges : List (Nat × Nat)
deriving Repr, DecidableEq

/-- Number of stored edges for one `(follower, following)` pair. -/
def countEdge (s : St) (follower following : Nat) : Nat :=
  (s.edges.filter (fun e => e == (follower, following))).length

/-- `followUser` (part_004 lines 408-437): reject self-follow, reject when
`Follow.findOne` finds an existing edge (the duplicate-follow conflict),
otherwise `Follow.create` the edge. -/
def followUser (s : St) (me target : Nat) : St × Resp :=
  if target == me then (s, .err 400 "You cannot follow yourself")
  else if (s.edges.find? (fun e => e == (me, target))).isSome then
    (s, .err 400 "Already following")
  else
    ({ edges := s.edges ++ [(me, target)] }, .ok 200 "User followed successfully")

/-- `deleteOne`'s effect: remove the first document matching the filter. -/
def eraseFirst : List (Nat × Nat) → Nat × Nat → List (Nat × Nat)
  | [], _ => []
  | e :: t, k => if e == k then t else e :: eraseFirst t k

/-- `unfollowUser` (part_004 lines 442-456): `Follow.deleteOne` removes the
first matching edge document (the unique index plus the create-time check
keep at most one); always answers success. -/
def unfollowUser (s : St) (me target : Nat) : St × Resp :=
  ({ edges := eraseFirst s.edges (me, target) },
    .ok 200 "User unfollowed successfully")

end FollowG

namespace FollowG

theorem length_filter_eraseFirst (k : Nat × Nat) :
    ∀ l : List (Nat × Nat),
      ((eraseFirst l k).filter (fun e => e == k)).length
        = (l.filter (fun e => e == k)).length - 1 := by
  intro l
  induction l with
  | nil => rfl
  | cons e t ih =>
    by_cases h : e = k
    · rw [show eraseFirst (e :: t) k = t from by simp [eraseFirst, h]]
      rw [List.filter_cons_of_pos (p := fun x => x == k) (by simp [h])]
      simp
    · rw [show eraseFirst (e :: t) k = e :: eraseFirst t k from by
        simp [eraseFirst, h]]
      rw [List.filter_cons_of_neg (p := fun x => x == k) (by simp [h]),
        List.filter_cons_of_neg (p := fun x => x == k) (by simp [h]), ih]

theorem countEdge_find?_none (s : St) (me target : Nat)
    (h : s.edges.find? (fun e => e == (me, target)) = none) :
    countEdge s me target = 0 := by
  unfold countEdge
  rw [List.length_eq_zero, List.filter_eq_nil_iff]
  intro a ha
  exact List.find?_eq_none.mp h a ha

theorem countEdge_pos_find?_isSome (s : St) (me target : Nat)
    (h : 0 < countEdge s me target) :
    (s.edges.find? (fun e => e == (me, target))).isSome = true := by
  unfold countEdge at h
  cases hf : s.edges.find? (fun e => e == (me, target)) with
  | some e => rfl
  | none =>
    rw [List.length_pos] at h
    rcases List.exists_mem_of_ne_nil _ h with ⟨a, ha⟩
    exact absurd (List.find?_eq_none.mp hf a (List.mem_of_mem_filter ha))
      (by simpa using List.of_mem_filter ha)

/-- A `followUser` call for a pair that already has an edge answers the
duplicate-follow conflict and leaves the store unchanged. -/
theorem followUser_conflict (s : St) (me target : Nat) (hne : me ≠ target)
    (h : 0 < countEdge s me target) :
    followUser s me target = (s, .err 400 "Already following") := by
  have htm : (target == me) = false := by
    rw [beq_eq_false_iff_ne]
    exact fun he => hne he.symm
  unfold followUser
  rw [htm]
  simp only [Bool.false_eq_true, if_false]
  rw [if_pos (countEdge_pos_find?_isSome s me target h)]

/-- Claim C8: for users A ≠ B with at most one stored edge for the pair
(the store invariant the unique index and the create-time check maintain),
follow(A→B) leaves exactly one edge; a second follow without an intervening
unfollow fails with the duplicate-follow conflict and changes nothing; and
follow then unfollow leaves zero edges for the pair. -/
theorem c8_follow_unfollow (s : St) (me target : Nat) (hne : me ≠ target)
    (hinv : countEdge s me target ≤ 1) :
    countEdge (followUser s me target).1 me target = 1 ∧
      (followUser (followUser s me target).1 me target).2
          = .err 400 "Already following" ∧
      (followUser (followUser s me target).1 me target).1
          = (followUser s me target).1 ∧
      countEdge (unfollowUser (followUser s me target).1 me target).1 me target
          = 0 := by
  have htm : (target == me) = false := by
    rw [beq_eq_false_iff_ne]
    exact fun he => hne he.symm
  have h1 : countEdge (followUser s me target).1 me target = 1 := by
    unfold followUser
    rw [htm]
    simp only [Bool.false_eq_true, if_false]
    cases hf : s.edges.find? (fun e => e == (me, target)) with
    | some e =>
      simp only [Option.isSome_some, if_true]
      have h0 : 0 < countEdge s me target := by
        have hmem := List.mem_of_find?_eq_some hf
        have hpe : e = (me, target) := by simpa using List.find?_some hf
        unfold countEdge
        rw [List.length_pos]
        intro hnil
        rw [List.eq_nil_iff_forall_not_mem] at hnil
        exact hnil e (List.mem_filter.mpr ⟨hmem, by simp [hpe]⟩)
      exact le_antisymm hinv h0
    | none =>
      simp only [Option.isSome_none, Bool.false_eq_true, if_false]
      have hz := countEdge_find?_none s me target hf
      unfold countEdge at hz ⊢
      rw [List.filter_append, List.length_append, hz]
      simp
  have hconf := followUser_conflict (followUser s me target).1 me target hne
    (by rw [h1]; exact Nat.zero_lt_one)
  refine ⟨h1, ?_, ?_, ?_⟩
  · rw [hconf]
  · rw [hconf]
  · unfold unfollowUser countEdge
    rw [length_filter_eraseFirst]
    have h1e := h1
    unfold countEdge at h1e
    rw [h1e]

/-- Witness for C8 at a concrete input: user 3 and user 4, no edge yet. -/
theorem c8_follow_unfollow_witness :
    (3 : Nat) ≠ 4 ∧ countEdge { edges := [(1, 2)] } 3 4 ≤ 1 ∧
      (countEdge (followUser { edges := [(1, 2)] } 3 4).1 3 4 = 1 ∧
        (followUser (followUser { edges := [(1, 2)] } 3 4).1 3 4).2
            = .err 400 "Already following" ∧
        (followUser (followUser { edges := [(1, 2)] } 3 4).1 3 4).1
            = (followUser { edges := [(1, 2)] } 3 4).1 ∧
        countEdge (unfollowUser (followUser { edges := [(1, 2)] } 3 4).1 3 4).1 3 4
            = 0) :=
  ⟨by decide, by decide,
    c8_follow_unfollow { edges := [(1, 2)] } 3 4 (by decide) (by decide)⟩

end FollowG

namespace Track

/-! Embedding of `src/models/UserSession.js`, the ScreenActivity model, the
tracking controller's `startSession` / `endSession`
(`src/controllers/authController.js` part, lines 413-509 and 671-732), and
`TrackingService.getOrCreateSession` (part_023 lines 12-36). -/

/-- Session status vocabulary of `userSessionSchema`. -/
inductive SStatus where
  | active
  | idle
  | expired
  | logged_out
deriving Repr, DecidableEq

/-- A UserSession document, the fields the verified operations touch. -/
structure SessionDoc where
  id : Nat
  user : Nat
  status : SStatus
  startTime : Int
  lastActivityTime : Int
  endTime : Option Int
  totalScreens : Nat
  totalDuration : Int
  isFirstSession : Bool
deriving Repr, DecidableEq

/-- A ScreenActivity document, the fields the verified operations touch. -/
structure ActivityDoc where
  id : Nat
  session : Nat
  user : Nat
  screenName : String
  enteredAt : Int
  exitedAt : Option Int
  duration : Int
  nextScreen : Option String
deriving Repr, DecidableEq

/-- The document store visible to the tracking subsystem. -/
structure St where
  sessions : List SessionDoc
  activities : List ActivityDoc
  nextSessionId : Nat
  nextActivityId : Nat
deriving Repr, DecidableEq

/-- `userSessionSchema.methods.endSession` (UserSession.js lines 122-127):
stamp `endTime`, set status `logged_out`, compute
`totalDuration = Math.floor((endTime - startTime) / 1000)`. -/
def endSessionMethod (now : Int) (d : SessionDoc) : SessionDoc :=
  { d with endTime := some now, status := .logged_out
           totalDuration := Int.fdiv (now - d.startTime) 1000 }

/-- `userSessionSchema.methods.updateActivity` (lines 115-119). -/
def updateActivityMethod (now : Int) (d : SessionDoc) : SessionDoc :=
  { d with lastActivityTime := now, status := .active }

/-- The `UserSession.findOne({ _id, user, status: 'active' })` lookup of the
session-end handler. -/
def findActiveSession (s : St) (sessionId userId : Nat) : Option SessionDoc :=
  s.sessions.find? (fun d =>
    d.id == sessionId && d.user == userId && d.status == SStatus.active)

/-- `endSession` controller (trackingController lines 671-732): find the
caller's active session; `ScreenActivity.updateMany({session, exitedAt:
null}, {$set: {exitedAt: now}})`; recompute `duration` for the session's
activities still holding `duration: 0`; finally run the session's
`endSession()` method.  `now1` is the timestamp of the `updateMany`,
`now2` the later one taken inside `endSession()`. -/
def endSession (s : St) (userId sessionId : Nat) (now1 now2 : Int) :
    St × Resp :=
  match findActiveSession s sessionId userId with
  | none => (s, .err 404 "Active session not found")
  | some sess =>
    let acts1 := s.activities.map (fun a =>
      if a.session == sessionId && a.exitedAt.isNone then
        { a with exitedAt := some now1 }
      else a)
    let acts2 := acts1.map (fun a =>
      if a.session == sessionId && a.duration == 0 then
        match a.exitedAt with
        | some t => { a with duration := Int.fdiv (t - a.enteredAt) 1000 }
        | none => a
      else a)
    let newSessions := s.sessions.map (fun d =>
      if d.id == sess.id then endSessionMethod now2 d else d)
    ({ s with activities := acts2, sessions := newSessions },
      .ok 200 "Session ended successfully")

/-- The active-session predicate of the per-user queries. -/
def isActiveOf (u : Nat) (d : SessionDoc) : Bool :=
  d.user == u && d.status == SStatus.active

/-- How many active sessions user `u` currently has. -/
def countActive (s : St) (u : Nat) : Nat :=
  (s.sessions.filter (isActiveOf u)).length

/-- `UserSession.findOne({ user, status: 'active' })`. -/
def findUserActive (s : St) (userId : Nat) : Option SessionDoc :=
  s.sessions.find? (fun d => d.user == userId && d.status == SStatus.active)

/-- The UserSession row created by both session-creating operations, with
the schema defaults (`status: active`, `startTime`/`lastActivityTime` now)
and `isFirstSession` from the prior per-user session count. -/
def newSession (id userId : Nat) (now : Int) (isFirst : Bool) : SessionDoc :=
  { id := id, user := userId, status := .active, startTime := now
    lastActivityTime := now, endTime := none, totalScreens := 0
    totalDuration := 0, isFirstSession := isFirst }

/-- `startSession` controller (trackingController lines 413-509): end any
existing active session of the caller, create a fresh active session (and
its initial `login` screen activity), then `session.updateActivity()`. -/
def startSession (s : St) (userId : Nat) (now : Int) : St × Nat :=
  let s0 : St :=
    match findUserActive s userId with
    | some e =>
      { s with sessions := s.sessions.map (fun d =>
          if d.id == e.id then endSessionMethod now d else d) }
    | none => s
  let isFirst := (s0.sessions.filter (fun d => d.user == userId)).length == 0
  let newId := s0.nextSessionId
  let s1 : St :=
    { s0 with sessions := s0.sessions ++ [newSession newId userId now isFirst]
              nextSessionId := newId + 1 }
  let act : ActivityDoc :=
    { id := s1.nextActivityId, session := newId, user := userId
      screenName := "login", enteredAt := now, exitedAt := none
      duration := 0, nextScreen := none }
  let s2 : St :=
    { s1 with activities := s1.activities ++ [act]
              nextActivityId := s1.nextActivityId + 1 }
  let s3 : St :=
    { s2 with sessions := s2.sessions.map (fun d =>
        if d.id == newId then updateActivityMethod now d else d) }
  (s3, newId)

/-- `TrackingService.getOrCreateSession` (part_023 lines 12-36): reuse the
existing active session if there is one, otherwise create a fresh one. -/
def getOrCreateSession (s : St) (userId : Nat) (now : Int) : St × Nat :=
  match findUserActive s userId with
  | some sess => (s, sess.id)
  | none =>
    let isFirst := (s.sessions.filter (fun d => d.user == userId)).length == 0
    ({ s with
        sessions := s.sessions
          ++ [newSession s.nextSessionId userId now isFirst]
        nextSessionId := s.nextSessionId + 1 },
      s.nextSessionId)

end Track

namespace Track

/-- Claim C6: ending an active session stamps `exitedAt` on every screen
activity of that session that was still open, and each such activity ends
up with duration `Math.floor((exitedAt - enteredAt) / 1000)`, non-negative
whenever the activity was entered no later than the closing timestamp; the
session itself becomes `logged_out` with `endTime` stamped and
`totalDuration = Math.floor((endTime - startTime) / 1000)`.  The
`duration = 0` hypothesis on open activities is the store invariant (an
activity's duration is only ever written together with `exitedAt`). -/
theorem c6_end_session_closes_all (s : St) (userId sessionId : Nat)
    (now1 now2 : Int) (sess : SessionDoc)
    (hfind : findActiveSession s sessionId userId = some sess)
    (hopen : ∀ a ∈ s.activities, a.session = sessionId → a.exitedAt = none →
      a.duration = 0 ∧ a.enteredAt ≤ now1)
    (hstart : sess.startTime ≤ now2) :
    (∀ a ∈ s.activities, a.session = sessionId → a.exitedAt = none →
      ∃ a' ∈ (endSession s userId sessionId now1 now2).1.activities,
        a'.id = a.id ∧ a'.exitedAt = some now1 ∧
        a'.duration = Int.fdiv (now1 - a.enteredAt) 1000 ∧
        0 ≤ a'.duration) ∧
    (∃ d ∈ (endSession s userId sessionId now1 now2).1.sessions,
      d.id = sess.id ∧ d.status = SStatus.logged_out ∧
      d.endTime = some now2 ∧
      d.totalDuration = Int.fdiv (now2 - sess.startTime) 1000 ∧
      0 ≤ d.totalDuration) := by
  unfold endSession
  rw [hfind]
  dsimp only
  constructor
  · intro a ha hsess hex
    rcases hopen a ha hsess hex with ⟨hdur, hent⟩
    refine ⟨_, List.mem_map_of_mem _ (List.mem_map_of_mem _ ha), ?_⟩
    have hg1 : (if a.session == sessionId && a.exitedAt.isNone then
          { a with exitedAt := some now1 } else a)
        = { a with exitedAt := some now1 } := by
      rw [if_pos]
      simp [hsess, hex]
    rw [hg1]
    have hg2 : (if ({ a with exitedAt := some now1 } : ActivityDoc).session
            == sessionId
            && ({ a with exitedAt := some now1 } : ActivityDoc).duration == 0
          then
            match ({ a with exitedAt := some now1 } : ActivityDoc).exitedAt with
            | some t =>
              { ({ a with exitedAt := some now1 } : ActivityDoc) with
                  duration := Int.fdiv
                    (t - ({ a with exitedAt := some now1 } : ActivityDoc).enteredAt)
                    1000 }
            | none => { a with exitedAt := some now1 }
          else { a with exitedAt := some now1 })
        = { a with exitedAt := some now1
                   duration := Int.fdiv (now1 - a.enteredAt) 1000 } := by
      rw [if_pos]
      simp [hsess, hdur]
    rw [hg2]
    refine ⟨rfl, rfl, rfl, ?_⟩
    exact Int.fdiv_nonneg (by simpa using hent) (by norm_num)
  · have hmem : sess ∈ s.sessions := by
      unfold findActiveSession at hfind
      exact List.mem_of_find?_eq_some hfind
    refine ⟨_, List.mem_map_of_mem _ hmem, ?_⟩
    rw [if_pos (by simp)]
    refine ⟨rfl, rfl, rfl, rfl, ?_⟩
    show 0 ≤ Int.fdiv (now2 - sess.startTime) 1000
    exact Int.fdiv_nonneg (by simpa using hstart) (by norm_num)

/-- A concrete store for the C6 witness: session 0 of user 1 is active
(started at 1000) and has one open `home` activity entered at 2000. -/
def c6St : St :=
  { sessions := [{ id := 0, user := 1, status := .active, startTime := 1000
                   lastActivityTime := 2000, endTime := none
                   totalScreens := 1, totalDuration := 0
                   isFirstSession := true }]
    activities := [{ id := 0, session := 0, user := 1, screenName := "home"
                     enteredAt := 2000, exitedAt := none, duration := 0
                     nextScreen := none }]
    nextSessionId := 1, nextActivityId := 1 }

def c6Sess : SessionDoc :=
  { id := 0, user := 1, status := .active, startTime := 1000
    lastActivityTime := 2000, endTime := none, totalScreens := 1
    totalDuration := 0, isFirstSession := true }

theorem c6_end_session_closes_all_witness :
    findActiveSession c6St 0 1 = some c6Sess ∧
      ((∀ a ∈ c6St.activities, a.session = 0 → a.exitedAt = none →
        ∃ a' ∈ (endSession c6St 1 0 5000 6000).1.activities,
          a'.id = a.id ∧ a'.exitedAt = some 5000 ∧
          a'.duration = Int.fdiv (5000 - a.enteredAt) 1000 ∧
          0 ≤ a'.duration) ∧
      (∃ d ∈ (endSession c6St 1 0 5000 6000).1.sessions,
        d.id = c6Sess.id ∧ d.status = SStatus.logged_out ∧
        d.endTime = some 6000 ∧
        d.totalDuration = Int.fdiv (6000 - c6Sess.startTime) 1000 ∧
        0 ≤ d.totalDuration)) :=
  ⟨by decide,
    c6_end_session_closes_all c6St 1 0 5000 6000 c6Sess (by decide)
      (by decide) (by decide)⟩

end Track

namespace Track

theorem endSessionMethod_id (now : Int) (d : SessionDoc) :
    (endSessionMethod now d).id = d.id := rfl

theorem isActiveOf_endSessionMethod (u : Nat) (now : Int) (d : SessionDoc) :
    isActiveOf u (endSessionMethod now d) = false := by
  unfold isActiveOf endSessionMethod
  simp

theorem list_len_le_one_mem {α : Type} (l : List α) (e : α)
    (hlen : l.length ≤ 1) (he : e ∈ l) : l = [e] := by
  cases l with
  | nil => cases he
  | cons x t =>
    cases t with
    | nil => rw [List.mem_singleton.mp he]
    | cons y u => simp at hlen

theorem filter_single_of_findUserActive (s : St) (u : Nat) (e : SessionDoc)
    (hfind : findUserActive s u = some e) (hinv : countActive s u ≤ 1) :
    s.sessions.filter (isActiveOf u) = [e] := by
  apply list_len_le_one_mem _ _ hinv
  exact List.mem_filter.mpr
    ⟨List.mem_of_find?_eq_some hfind, List.find?_some hfind⟩

theorem countActive_flip_le (u eId : Nat) (now : Int) :
    ∀ l : List SessionDoc,
      ((l.map (fun d => if d.id == eId then endSessionMethod now d else d)).filter
          (isActiveOf u)).length
        ≤ (l.filter (isActiveOf u)).length := by
  intro l
  induction l with
  | nil => exact Nat.le_refl 0
  | cons d t ih =>
    rw [List.map_cons]
    by_cases hid : (d.id == eId) = true
    · rw [if_pos hid,
        List.filter_cons_of_neg (p := isActiveOf u)
          (by rw [isActiveOf_endSessionMethod]; decide)]
      refine le_trans ih ?_
      rw [List.filter_cons]
      split
      · rw [List.length_cons]
        exact Nat.le_succ _
      · exact Nat.le_refl _
    · rw [if_neg hid]
      by_cases hd : isActiveOf u d = true
      · rw [List.filter_cons_of_pos (p := isActiveOf u) hd,
          List.filter_cons_of_pos (p := isActiveOf u) hd,
          List.length_cons, List.length_cons]
        exact Nat.succ_le_succ ih
      · rw [List.filter_cons_of_neg (p := isActiveOf u) (by simpa using hd),
          List.filter_cons_of_neg (p := isActiveOf u) (by simpa using hd)]
        exact ih

theorem countActive_flip_zero (s : St) (u : Nat) (now : Int) (e : SessionDoc)
    (hfind : findUserActive s u = some e) (hinv : countActive s u ≤ 1) :
    ((s.sessions.map (fun d => if d.id == e.id then endSessionMethod now d
          else d)).filter (isActiveOf u)).length = 0 := by
  rw [List.length_eq_zero, List.filter_eq_nil_iff]
  intro x hx
  rcases List.mem_map.mp hx with ⟨d, hd, rfl⟩
  by_cases hid : (d.id == e.id) = true
  · rw [if_pos hid, isActiveOf_endSessionMethod]
    decide
  · rw [if_neg hid]
    intro hpred
    have hdf : d ∈ s.sessions.filter (isActiveOf u) :=
      List.mem_filter.mpr ⟨hd, hpred⟩
    rw [filter_single_of_findUserActive s u e hfind hinv] at hdf
    rw [List.mem_singleton.mp hdf] at hid
    exact hid (by simp)

theorem countActive_append_new (l : List SessionDoc) (x : SessionDoc)
    (u : Nat) :
    ((l ++ [x]).filter (isActiveOf u)).length
      = (l.filter (isActiveOf u)).length
        + (if isActiveOf u x then 1 else 0) := by
  rw [List.filter_append, List.length_append]
  congr 1
  rw [List.filter_cons]
  split <;> simp

theorem countActive_zero_of_none (s : St) (u : Nat)
    (hfind : findUserActive s u = none) :
    (s.sessions.filter (isActiveOf u)).length = 0 := by
  rw [List.length_eq_zero, List.filter_eq_nil_iff]
  exact List.find?_eq_none.mp hfind

theorem map_eq_self_on {α : Type} (g : α → α) :
    ∀ l : List α, (∀ x ∈ l, g x = x) → l.map g = l := by
  intro l
  induction l with
  | nil => intro _; rfl
  | cons a t ih =>
    intro h
    rw [List.map_cons, h a (List.mem_cons_self a t),
      ih (fun x hx => h x (List.mem_cons_of_mem a hx))]

/-- The sessions store produced by `startSession`: the viewer's previous
active session (if any) logged out, plus one fresh active session; the
final `updateActivity()` call is the identity on the store because the new
session is already active with `lastActivityTime = now`. -/
theorem startSession_sessions_char (s : St) (userId : Nat) (now : Int)
    (hwf : ∀ d ∈ s.sessions, d.id < s.nextSessionId) :
    ∃ b : Bool, (startSession s userId now).1.sessions
      = (match findUserActive s userId with
         | some e => s.sessions.map (fun d =>
             if d.id == e.id then endSessionMethod now d else d)
         | none => s.sessions)
        ++ [newSession s.nextSessionId userId now b] := by
  cases hf : findUserActive s userId with
  | some e =>
    refine ⟨((s.sessions.map (fun d =>
        if d.id == e.id then endSessionMethod now d else d)).filter
          (fun d => d.user == userId)).length == 0, ?_⟩
    unfold startSession
    rw [hf]
    dsimp only
    rw [map_eq_self_on]
    intro x hx
    rcases List.mem_append.mp hx with hx' | hx'
    · rcases List.mem_map.mp hx' with ⟨d, hd, rfl⟩
      have hlt : d.id < s.nextSessionId := hwf d hd
      by_cases hid : (d.id == e.id) = true
      · rw [if_pos hid]
        rw [if_neg (by rw [endSessionMethod_id]; simp [Nat.ne_of_lt hlt])]
      · rw [if_neg hid]
        rw [if_neg (by simp [Nat.ne_of_lt hlt])]
    · rw [List.mem_singleton.mp hx']
      rw [if_pos (by simp [newSession])]
      rfl
  | none =>
    refine ⟨(s.sessions.filter (fun d => d.user == userId)).length == 0, ?_⟩
    unfold startSession
    rw [hf]
    dsimp only
    rw [map_eq_self_on]
    intro x hx
    rcases List.mem_append.mp hx with hx' | hx'
    · exact if_neg (by simp [Nat.ne_of_lt (hwf x hx')])
    · rw [List.mem_singleton.mp hx']
      rw [if_pos (by simp [newSession])]
      rfl

end Track

namespace Track

/-- Claim C10: assuming the stored invariant (session ids below the id
counter, at most one active session per user), every user still has at most
one active session after `startSession` or `getOrCreateSession`;
`startSession` first logs out the caller's existing active session, ending
with exactly one active session for the caller; and when the caller already
has an active session, `getOrCreateSession` returns the store unchanged —
it reuses the session instead of creating a second one. -/
theorem c10_at_most_one_active (s : St) (userId : Nat) (now : Int)
    (hwf : ∀ d ∈ s.sessions, d.id < s.nextSessionId)
    (hinv : ∀ u, countActive s u ≤ 1) :
    (∀ u, countActive (startSession s userId now).1 u ≤ 1) ∧
      countActive (startSession s userId now).1 userId = 1 ∧
      (∀ u, countActive (getOrCreateSession s userId now).1 u ≤ 1) ∧
      (∀ e, findUserActive s userId = some e →
        (getOrCreateSession s userId now).1 = s) := by
  rcases startSession_sessions_char s userId now hwf with ⟨b, hchar⟩
  have hnewActive : isActiveOf userId (newSession s.nextSessionId userId now b)
      = true := by
    simp [isActiveOf, newSession]
  have hnewOther : ∀ u, u ≠ userId →
      isActiveOf u (newSession s.nextSessionId userId now b) = false := by
    intro u hu
    have : (userId == u) = false := by
      rw [beq_eq_false_iff_ne]
      exact fun h => hu h.symm
    simp [isActiveOf, newSession, this]
  cases hf : findUserActive s userId with
  | some e =>
    rw [hf] at hchar
    dsimp only at hchar
    have hflip0 := countActive_flip_zero s userId now e hf (hinv userId)
    have hku : countActive (startSession s userId now).1 userId = 1 := by
      unfold countActive
      rw [hchar, countActive_append_new, hflip0, hnewActive]
      decide
    refine ⟨?_, hku, ?_, ?_⟩
    · intro u
      by_cases hu : u = userId
      · rw [hu, hku]
      · unfold countActive
        rw [hchar, countActive_append_new, hnewOther u hu]
        simp only [Bool.false_eq_true, if_false, Nat.add_zero]
        exact le_trans (countActive_flip_le u e.id now s.sessions) (hinv u)
    · intro u
      unfold getOrCreateSession
      rw [hf]
      exact hinv u
    · intro e' he'
      unfold getOrCreateSession
      rw [hf]
  | none =>
    rw [hf] at hchar
    dsimp only at hchar
    have hz := countActive_zero_of_none s userId hf
    have hku : countActive (startSession s userId now).1 userId = 1 := by
      unfold countActive
      rw [hchar, countActive_append_new, hz, hnewActive]
      decide
    refine ⟨?_, hku, ?_, ?_⟩
    · intro u
      by_cases hu : u = userId
      · rw [hu, hku]
      · unfold countActive
        rw [hchar, countActive_append_new, hnewOther u hu]
        simp only [Bool.false_eq_true, if_false, Nat.add_zero]
        exact hinv u
    · intro u
      unfold getOrCreateSession countActive
      rw [hf]
      dsimp only
      rw [countActive_append_new]
      by_cases hu : u = userId
      · rw [hu, hz]
        simp [isActiveOf, newSession]
      · have : (userId == u) = false := by
          rw [beq_eq_false_iff_ne]
          exact fun h => hu h.symm
        rw [show isActiveOf u (newSession s.nextSessionId userId now
              ((s.sessions.filter (fun d => d.user == userId)).length == 0))
            = false from by simp [isActiveOf, newSession, this]]
        simp only [Bool.false_eq_true, if_false, Nat.add_zero]
        exact hinv u
    · intro e' he'
      cases he'

end Track

namespace Track

/-- A concrete store for the C10 witness: user 1 has one active session. -/
def c10St : St :=
  { sessions := [{ id := 0, user := 1, status := .active, startTime := 1000
                   lastActivityTime := 2000, endTime := none
                   totalScreens := 0, totalDuration := 0
                   isFirstSession := true }]
    activities := [], nextSessionId := 1, nextActivityId := 0 }

theorem c10_at_most_one_active_witness :
    (∀ d ∈ c10St.sessions, d.id < c10St.nextSessionId) ∧
      (∀ u, countActive c10St u ≤ 1) ∧
      ((∀ u, countActive (startSession c10St 1 9000).1 u ≤ 1) ∧
        countActive (startSession c10St 1 9000).1 1 = 1 ∧
        (∀ u, countActive (getOrCreateSession c10St 1 9000).1 u ≤ 1) ∧
        (∀ e, findUserActive c10St 1 = some e →
          (getOrCreateSession c10St 1 9000).1 = c10St)) :=
  ⟨by decide,
    fun u => le_trans (List.length_filter_le _ _) (by decide),
    c10_at_most_one_active c10St 1 9000 (by decide)
      (fun u => le_trans (List.length_filter_le _ _) (by decide))⟩

end Track
